import Mathlib

/-!
# plexdrive: the Drive client (`drive.go`)

A shallow embedding of `src/drive.go`: the blacklist filter of
`Drive.GetObjectByParentAndName`, the record mapping `Drive.mapFileToObject`,
and one run of the change poller `checkChanges` (the closure inside
`Drive.startWatchChanges`).

Conventions of the embedding.

* Go `string` is `String`; Go `int64` is `Int`, wrapped with `wrapInt64` where
  the code does arithmetic; `uint64(x)` is `toUint64 x`.
* A Go result `(v, err)` is `Except String v`.
* The remote change feed is a finite script of answers, one per `query.Do()`;
  a query issued after the script ran out fails.  Every terminating run of the
  code against any remote is a run against such a script.
* Pointers held in slices (`[]*Change`, `[]*ParentReference`) are taken to be
  non-nil; `Change.File`, which the code itself tests against `nil`, is an
  `Option`, and dereferencing it when absent is a panic that ends the run.
* Every effect of a run is recorded: the calls issued (remote queries and cache
  calls, in order) and the log events.
-/

namespace Plexdrive

/-! ## Machine integers -/

/-- Largest `int64`. -/
def maxInt64 : Int := 2 ^ 63 - 1

/-- Two's-complement wrap of an integer into the `int64` range. -/
def wrapInt64 (x : Int) : Int := (x + 2 ^ 63) % 2 ^ 64 - 2 ^ 63

/-- Go conversion `uint64(x)` of an `int64`. -/
def toUint64 (x : Int) : Nat := (x % 2 ^ 64).toNat

/-! ## Library functions used by `drive.go` -/

/-- Go `strings.Join`. -/
def stringsJoin (sep : String) : List String → String
  | [] => ""
  | [a] => a
  | a :: b :: rest => a ++ sep ++ stringsJoin sep (b :: rest)

/-- The string `sub` occurs in `s` as a contiguous substring. -/
def occursIn (sub s : String) : Prop := sub.data <:+: s.data

instance (sub s : String) : Decidable (occursIn sub s) := by
  unfold occursIn; infer_instance

/-- Go `time.Time`, as an instant on an integer time line. -/
abbrev Time := Int

/-! ## Remote API records (`google.golang.org/api/drive/v2`) -/

/-- The field of `gdrive.ParentReference` that the code reads. -/
structure ParentReference where
  Id : String
deriving DecidableEq, Repr

/-- The fields of `gdrive.File` that the code reads. -/
structure File where
  Id : String
  Title : String
  MimeType : String
  ModifiedDate : String
  FileSize : Int
  DownloadUrl : String
  ExplicitlyTrashed : Bool
  Parents : List ParentReference
deriving DecidableEq, Repr

/-- The fields of `gdrive.Change` that the code reads; `File` is a pointer that may be nil. -/
structure Change where
  Deleted : Bool
  FileId : String
  File : Option File
deriving DecidableEq, Repr

/-- The fields of `gdrive.ChangeList` that the code reads. -/
structure ChangeList where
  Items : List Change
  LargestChangeId : Int
  NextPageToken : String
deriving DecidableEq, Repr

/-- The request built by `client.Changes.List()` and its setters. -/
structure ChangesListCall where
  includeDeleted : Option Bool
  maxResults : Option Int
  pageToken : Option String
  startChangeId : Option Int
deriving DecidableEq, Repr

/-- The remote change feed seen by one run: the answer to each successive `query.Do()`,
which may depend on the query; a query beyond the script fails. -/
abbrev Remote := List (ChangesListCall → Except String ChangeList)

/-! ## Cached objects -/

/-- Modelled from the spec: the type `APIObject` is declared outside `drive.go`; its fields
are the ones `mapFileToObject` fills in (drive.go:279-287). -/
structure APIObject where
  ObjectID : String
  Name : String
  IsDir : Bool
  LastModified : Time
  Size : Nat
  DownloadURL : String
  Parents : String
deriving DecidableEq, Repr

/-- Modelled from the spec: the metadata cache `Cache` (cache.go) is not among the sources.
It holds the object table, at most one record per id, and the persisted sync cursor. -/
structure Cache where
  objects : List APIObject
  largestChangeID : Int
deriving DecidableEq, Repr

/-- Failures the storage layer may report during one run; they are decided by the
environment, not by `drive.go`. -/
structure Faults where
  getLargestChangeID : Option String
  updateObject : Cache → APIObject → Option String

/-- Modelled from the spec: `Cache.GetLargestChangeID`, `getCursor() -> integer`, which in Go
may also return an error. -/
def Cache.GetLargestChangeID (c : Cache) (faults : Faults) : Except String Int :=
  match faults.getLargestChangeID with
  | some e => .error e
  | none => .ok c.largestChangeID

/-- Modelled from the spec: `Cache.StoreLargestChangeID`, `setCursor(integer)`. -/
def Cache.StoreLargestChangeID (c : Cache) (v : Int) : Cache :=
  { c with largestChangeID := v }

/-- Modelled from the spec: `Cache.DeleteObject`, `remove(id)`: delete the record. -/
def Cache.DeleteObject (c : Cache) (id : String) : Cache :=
  { c with objects := c.objects.filter (fun o => o.ObjectID ≠ id) }

/-- Modelled from the spec: `Cache.UpdateObject`, `upsert(object)`: replace any existing
record with the same id.  A call that reports an error leaves the cache as it was. -/
def Cache.UpdateObject (c : Cache) (faults : Faults) (o : APIObject) : Option String × Cache :=
  match faults.updateObject c o with
  | some e => (some e, c)
  | none => (none, { c with objects := o :: c.objects.filter (fun x => x.ObjectID ≠ o.ObjectID) })

/-- Modelled from the spec: `Cache.GetObject`, `get(id) -> RemoteObject | NotFound`. -/
def Cache.GetObject (c : Cache) (id : String) : Option APIObject :=
  c.objects.find? (fun o => o.ObjectID = id)

/-! ## Effects of a run -/

/-- A call issued by `checkChanges` to the cache or to the remote API. -/
inductive Call where
  | GetLargestChangeID
  | ChangesListDo (query : ChangesListCall)
  | DeleteObject (id : String)
  | UpdateObject (object : APIObject)
  | StoreLargestChangeID (v : Int)
deriving DecidableEq, Repr

/-- A call to the logger, one constructor per message of `drive.go`. -/
inductive LogEvent where
  | debugCheckingForChanges
  | debugError (err : String)
  | warnCouldNotGetLargestChangeID
  | infoFirstCacheBuildStarted
  | warnCouldNotGetChanges
  | traceChange (change : Change)
  | warnCouldNotMapFile
  | warnCouldNotUpdateObject (id : String)
  | infoProcessed (processed deleted updated : Nat)
  | infoFirstCacheBuildFinished
deriving DecidableEq, Repr

/-! ## drive.go:18-29, the blacklist -/

/-- The map `BlackListObjects` as `init` fills it. -/
def BlackListObjects : List (String × Bool) :=
  [(".git", true), ("HEAD", true), (".Trash", true), (".Trash-1000", true)]

/-! ## drive.go:251-258 -/

/-- The method `Drive.GetObjectByParentAndName`.  `cacheGetObjectByParentAndName` is
`d.cache.GetObjectByParentAndName` at the current state of the cache. -/
def Drive.GetObjectByParentAndName
    (cacheGetObjectByParentAndName : String → String → Except String APIObject)
    (parent name : String) : Except String APIObject :=
  match BlackListObjects.lookup name with
  | some _ => .error ("Object " ++ name ++ " is blacklisted and will not be returned")
  | none => cacheGetObjectByParentAndName parent name

/-! ## drive.go:266-288 -/

/-- The method `Drive.mapFileToObject`, with the events it logs.  `parseRFC3339 s` is
`time.Parse(time.RFC3339, s)`. -/
def Drive.mapFileToObject (parseRFC3339 : String → Except String Time) (file : File) :
    Except String APIObject × List LogEvent :=
  match parseRFC3339 file.ModifiedDate with
  | .error err => (.error "Could not parse last modified date", [LogEvent.debugError err])
  | .ok lastModified =>
    let parents := file.Parents.map (fun parent => parent.Id)
    (.ok
      { ObjectID := file.Id
        Name := file.Title
        IsDir := file.MimeType == "application/vnd.google-apps.folder"
        LastModified := lastModified
        Size := toUint64 file.FileSize
        DownloadURL := file.DownloadUrl
        Parents := "|" ++ stringsJoin "|" parents ++ "|" }, [])

/-! ## drive.go:73-153, one run of `checkChanges` -/

/-- What a run has done so far: the cache, the calls issued and the events logged. -/
structure World where
  cache : Cache
  calls : List Call
  log : List LogEvent

/-- Record a call. -/
def World.call (w : World) (c : Call) : World := { w with calls := w.calls ++ [c] }

/-- Record log events. -/
def World.logs (w : World) (es : List LogEvent) : World := { w with log := w.log ++ es }

/-- The loop variables of `checkChanges` (drive.go:87-91).  The three counters are Go `int`s
that count entries processed; they only feed the log and are kept as naturals. -/
structure Locals where
  deletedItems : Nat
  updatedItems : Nat
  processedItems : Nat
  pageToken : String
  largestChangeID : Int
deriving DecidableEq, Repr

/-- The state in which a run ended, and whether it ended in a panic. -/
structure Outcome where
  world : World
  locals : Locals
  panicked : Bool

/-- The test of drive.go:113. -/
def isDeletion (change : Change) : Bool :=
  change.Deleted || (match change.File with
    | some file => file.ExplicitlyTrashed
    | none => false)

/-- One iteration of the loop over `results.Items` (drive.go:111-131).  A change that is
neither deleted nor trashed and has no `File` makes `mapFileToObject` dereference nil: the
run panics. -/
def applyChange (parseRFC3339 : String → Except String Time) (faults : Faults)
    (change : Change) (w : World) (l : Locals) : Outcome :=
  let w := w.logs [LogEvent.traceChange change]
  if isDeletion change then
    let w := { w.call (Call.DeleteObject change.FileId) with
               cache := w.cache.DeleteObject change.FileId }
    ⟨w, { l with deletedItems := l.deletedItems + 1, processedItems := l.processedItems + 1 },
      false⟩
  else
    match change.File with
    | none => ⟨w, l, true⟩
    | some file =>
      match Drive.mapFileToObject parseRFC3339 file with
      | (.error err, evs) =>
        let w := (w.logs evs).logs [LogEvent.debugError err, LogEvent.warnCouldNotMapFile]
        ⟨w, { l with processedItems := l.processedItems + 1 }, false⟩
      | (.ok object, evs) =>
        let w := (w.logs evs).call (Call.UpdateObject object)
        let r := w.cache.UpdateObject faults object
        let w := { w with cache := r.2 }
        let w := match r.1 with
          | some err => w.logs [LogEvent.debugError err,
                                LogEvent.warnCouldNotUpdateObject object.ObjectID]
          | none => w
        ⟨w, { l with updatedItems := l.updatedItems + 1,
                     processedItems := l.processedItems + 1 }, false⟩

/-- The loop over `results.Items` (drive.go:110-132); a panic ends it. -/
def applyItems (parseRFC3339 : String → Except String Time) (faults : Faults) :
    List Change → World → Locals → Outcome
  | [], w, l => ⟨w, l, false⟩
  | change :: rest, w, l =>
    let o := applyChange parseRFC3339 faults change w l
    if o.panicked then o else applyItems parseRFC3339 faults rest o.world o.locals

/-- The query of drive.go:93-101. -/
def buildQuery (pageToken : String) (changeID : Int) : ChangesListCall :=
  { includeDeleted := some true
    maxResults := some 1000
    pageToken := if "" ≠ pageToken then some pageToken else none
    startChangeId := if 0 ≠ changeID then some changeID else none }

/-- The part of the paging loop's body that follows a successful fetch (drive.go:110-140). -/
def applyPage (parseRFC3339 : String → Except String Time) (faults : Faults)
    (results : ChangeList) (w : World) (l : Locals) : Outcome :=
  let o := applyItems parseRFC3339 faults results.Items w l
  if o.panicked then o
  else
    let w := if o.locals.processedItems > 0 then
        o.world.logs [LogEvent.infoProcessed o.locals.processedItems o.locals.deletedItems
          o.locals.updatedItems]
      else o.world
    ⟨w, { o.locals with largestChangeID := results.LargestChangeId,
                        pageToken := results.NextPageToken }, false⟩

/-- The paging loop (drive.go:92-144); `remote` holds the answers not yet consumed. -/
def pageLoop (parseRFC3339 : String → Except String Time) (faults : Faults) (changeID : Int) :
    Remote → World → Locals → Outcome
  | [], w, l =>
    let w := w.call (Call.ChangesListDo (buildQuery l.pageToken changeID))
    ⟨w.logs [LogEvent.debugError "no answer", LogEvent.warnCouldNotGetChanges], l, false⟩
  | answer :: remote, w, l =>
    let query := buildQuery l.pageToken changeID
    let w := w.call (Call.ChangesListDo query)
    match answer query with
    | .error err =>
      ⟨w.logs [LogEvent.debugError err, LogEvent.warnCouldNotGetChanges], l, false⟩
    | .ok results =>
      let o := applyPage parseRFC3339 faults results w l
      if o.panicked then o
      else if "" = o.locals.pageToken then o
      else pageLoop parseRFC3339 faults changeID remote o.world o.locals

/-- The result of a run of `checkChanges`: the cache it leaves, the calls it issued in order,
the events it logged in order, and whether it ended in a panic. -/
structure Run where
  cache : Cache
  calls : List Call
  log : List LogEvent
  panicked : Bool

/-- The closure `checkChanges` (drive.go:73-153). -/
def checkChanges (parseRFC3339 : String → Except String Time) (faults : Faults)
    (remote : Remote) (firstCheck : Bool) (cache : Cache) : Run :=
  let w : World := ⟨cache, [], []⟩
  let w := w.logs [LogEvent.debugCheckingForChanges]
  let w := w.call Call.GetLargestChangeID
  match w.cache.GetLargestChangeID faults with
  | .error err =>
    let w := w.logs [LogEvent.debugError err, LogEvent.warnCouldNotGetLargestChangeID]
    ⟨w.cache, w.calls, w.log, false⟩
  | .ok changeID =>
    let w := if firstCheck then w.logs [LogEvent.infoFirstCacheBuildStarted] else w
    let o := pageLoop parseRFC3339 faults changeID remote w ⟨0, 0, 0, "", changeID⟩
    if o.panicked then ⟨o.world.cache, o.world.calls, o.world.log, true⟩
    else
      let w := o.world
      let w := if o.locals.largestChangeID ≥ changeID then
          { w.call (Call.StoreLargestChangeID (wrapInt64 (o.locals.largestChangeID + 1))) with
            cache := w.cache.StoreLargestChangeID (wrapInt64 (o.locals.largestChangeID + 1)) }
        else w
      let w := if firstCheck then w.logs [LogEvent.infoFirstCacheBuildFinished] else w
      ⟨w.cache, w.calls, w.log, false⟩

/-! ## Descriptions of a run, used to state its properties -/

/-- The pages that the successive `query.Do()` calls of a run return, up to the first failed
fetch or the first page without a continuation token. -/
def fetchedPages (changeID : Int) : Remote → String → List ChangeList
  | [], _ => []
  | answer :: remote, pageToken =>
    match answer (buildQuery pageToken changeID) with
    | .error _ => []
    | .ok results =>
      results :: (if "" = results.NextPageToken then []
                  else fetchedPages changeID remote results.NextPageToken)

/-- Whether some `query.Do()` of the run fails. -/
def fetchFails (changeID : Int) : Remote → String → Bool
  | [], _ => true
  | answer :: remote, pageToken =>
    match answer (buildQuery pageToken changeID) with
    | .error _ => true
    | .ok results =>
      if "" = results.NextPageToken then false
      else fetchFails changeID remote results.NextPageToken

/-- The value of the local `largestChangeID` when the paging loop is left: the
`LargestChangeId` of the last page fetched, or the cursor read if there is none. -/
def finalLargestChangeID (changeID : Int) (remote : Remote) : Int :=
  match (fetchedPages changeID remote "").getLast? with
  | some results => results.LargestChangeId
  | none => changeID

/-- A change the loop body can process: one that is not a deletion carries its `File`. -/
def Change.hasFile (change : Change) : Bool := change.Deleted || change.File.isSome

/-- The cache call that a change entry gives rise to, if any (drive.go:113-129). -/
def callOfChange (parseRFC3339 : String → Except String Time) (change : Change) : Option Call :=
  if isDeletion change then some (Call.DeleteObject change.FileId)
  else match change.File with
    | none => none
    | some file =>
      match (Drive.mapFileToObject parseRFC3339 file).1 with
      | .error _ => none
      | .ok object => some (Call.UpdateObject object)

/-- Whether a call changes the object table. -/
def Call.isMutation : Call → Bool
  | Call.DeleteObject _ => true
  | Call.UpdateObject _ => true
  | _ => false

/-! ## Further vocabulary for the statements -/

/-- Each id followed by the separator. -/
def segments {α : Type} (bar : α) (ids : List (List α)) : List α :=
  ids.flatMap (fun id => id ++ [bar])

/-- The integer fits `int64`. -/
def inInt64 (x : Int) : Prop := -2 ^ 63 ≤ x ∧ x ≤ maxInt64

instance (x : Int) : Decidable (inInt64 x) := by unfold inInt64; infer_instance

/-- Two outcomes agree on everything but the log. -/
def Outcome.sameEffects (o o' : Outcome) : Prop :=
  o.world.cache = o'.world.cache ∧ o.world.calls = o'.world.calls ∧ o.locals = o'.locals ∧
    o.panicked = o'.panicked

/-- Whether a call is `StoreLargestChangeID`. -/
def Call.isStore : Call → Bool
  | Call.StoreLargestChangeID _ => true
  | _ => false

/-- The change entries of the pages fetched by a run, in the order received. -/
def fetchedChanges (changeID : Int) (remote : Remote) : List Change :=
  (fetchedPages changeID remote "").flatMap (fun results => results.Items)

/-- The id of the record that a cache call writes or removes. -/
def Call.objectID : Call → Option String
  | Call.DeleteObject id => some id
  | Call.UpdateObject object => some object.ObjectID
  | _ => none

/-- The record that a cache call leaves under the id it targets. -/
def Call.record : Call → Option APIObject
  | Call.UpdateObject object => some object
  | _ => none

/-- The cache after a call that succeeds. -/
def Cache.afterCall (c : Cache) : Call → Cache
  | Call.DeleteObject id => c.DeleteObject id
  | Call.UpdateObject object => (c.UpdateObject ⟨none, fun _ _ => none⟩ object).2
  | Call.StoreLargestChangeID v => c.StoreLargestChangeID v
  | _ => c

/-- The successive runs made by `startWatchChanges` (drive.go:155-158): `checkChanges(true)`,
then `checkChanges(false)` on every tick.  `envs` lists, run by run, the storage faults and
the remote feed that the run meets; a panic ends the process. -/
def runChecks (parseRFC3339 : String → Except String Time) :
    List (Faults × Remote) → Bool → Cache → Cache
  | [], _, cache => cache
  | (faults, remote) :: envs, firstCheck, cache =>
    let run := checkChanges parseRFC3339 faults remote firstCheck cache
    if run.panicked then run.cache else runChecks parseRFC3339 envs false run.cache

/-- In every run of the sequence the increment `largestChangeID + 1` of drive.go:147 stays
within `int64`. -/
def incrementsFit (parseRFC3339 : String → Except String Time) :
    List (Faults × Remote) → Bool → Cache → Prop
  | [], _, _ => True
  | (faults, remote) :: envs, firstCheck, cache =>
    finalLargestChangeID cache.largestChangeID remote + 1 ≤ maxInt64 ∧
      incrementsFit parseRFC3339 envs false
        (checkChanges parseRFC3339 faults remote firstCheck cache).cache

/-! ## Concrete inputs -/

/-- A stand-in for `time.Parse` at concrete inputs: it rejects exactly the empty string. -/
def parseNonEmpty : String → Except String Time :=
  fun s => if s = "" then Except.error "cannot parse" else Except.ok 0

/-- A storage layer that reports no failure. -/
def noFaults : Faults := ⟨none, fun _ _ => none⟩

/-- A storage layer whose `UpdateObject` always fails. -/
def updateFaults : Faults := ⟨none, fun _ _ => some "database is locked"⟩

/-- A storage layer whose cursor cannot be read. -/
def readFaults : Faults := ⟨some "database is locked", fun _ _ => none⟩

/-- A remote file record with id `a`, child of `root`. -/
def fileA (title modifiedDate : String) : File :=
  ⟨"a", title, "text/plain", modifiedDate, 5, "https://content/a", false, [⟨"root"⟩]⟩

/-- A remote folder record with id `b`, which carries a size and a download URL. -/
def folderB : File :=
  ⟨"b", "docs", "application/vnd.google-apps.folder", "2017-03-01T10:00:00Z", 7,
    "https://content/b", false, [⟨"root"⟩, ⟨"q"⟩]⟩

/-- The object that `fileA title` maps to when its date parses. -/
def objectA (title : String) : APIObject :=
  ⟨"a", title, false, 0, 5, "https://content/a", "|root|"⟩

/-- The object that `folderB` maps to. -/
def objectB : APIObject :=
  ⟨"b", "docs", true, 0, 7, "https://content/b", "|root|q|"⟩

/-- A `query.Do()` that returns the given page. -/
def page (items : List Change) (largest : Int) (token : String) :
    ChangesListCall → Except String ChangeList :=
  fun _ => Except.ok ⟨items, largest, token⟩

/-- A `query.Do()` that fails. -/
def failedFetch : ChangesListCall → Except String ChangeList :=
  fun _ => Except.error "connection reset"

/-- The feed of the end-to-end scenario: one page, two upserts under `root` and one
unrelated delete, `LargestChangeId = 3`. -/
def scenarioRemote : Remote :=
  [page [⟨false, "a", some (fileA "x" "2017-03-01T10:00:00Z")⟩, ⟨false, "b", some folderB⟩,
         ⟨true, "z", none⟩] 3 ""]

/-- Two entries for the id `a`: the first maps, the date of the second does not parse. -/
def staleRemote : Remote :=
  [page [⟨false, "a", some (fileA "x" "2017-03-01T10:00:00Z")⟩,
         ⟨false, "a", some (fileA "y" "")⟩] 3 ""]

/-- An entry that is neither deleted nor trashed and has no `File`, then a deletion. -/
def nilFileRemote : Remote :=
  [page [⟨false, "a", none⟩, ⟨true, "z", none⟩] 3 ""]

/-- Two entries for the id `a`, both of which map. -/
def renameRemote : Remote :=
  [page [⟨false, "a", some (fileA "x" "2017-03-01T10:00:00Z")⟩,
         ⟨false, "a", some (fileA "y" "2017-03-02T10:00:00Z")⟩] 3 ""]

/-! ## Lemmas -/

theorem lookup_blacklist (name : String) :
    (BlackListObjects.lookup name).isSome = true ↔
      name ∈ [".git", "HEAD", ".Trash", ".Trash-1000"] := by
  unfold BlackListObjects
  simp only [List.lookup, List.mem_cons, List.mem_singleton]
  by_cases h1 : name = ".git"
  · simp [h1]
  by_cases h2 : name = "HEAD"
  · simp [h2]
  by_cases h3 : name = ".Trash"
  · simp [h3]
  by_cases h4 : name = ".Trash-1000"
  · simp [h4]
  have e1 : (name == ".git") = false := by simpa using h1
  have e2 : (name == "HEAD") = false := by simpa using h2
  have e3 : (name == ".Trash") = false := by simpa using h3
  have e4 : (name == ".Trash-1000") = false := by simpa using h4
  simp [e1, e2, e3, e4, h1, h2, h3, h4]

theorem prefix_segment_eq {α : Type} (bar : α) (z : List α) :
    ∀ (p id : List α), bar ∉ p → bar ∉ id → p ++ [bar] <+: id ++ bar :: z → p = id
  | [], [], _, _, _ => rfl
  | [], b :: id, _, hid, h => by
    simp only [List.nil_append, List.cons_append] at h
    have := (List.cons_prefix_cons.mp h).1
    exact absurd (this ▸ List.mem_cons_self _ _) hid
  | a :: p, [], hp, _, h => by
    simp only [List.nil_append, List.cons_append] at h
    have := (List.cons_prefix_cons.mp h).1
    exact absurd (this ▸ List.mem_cons_self _ _) hp
  | a :: p, b :: id, hp, hid, h => by
    simp only [List.cons_append] at h
    obtain ⟨hab, ht⟩ := List.cons_prefix_cons.mp h
    have := prefix_segment_eq bar z p id (fun hm => hp (List.mem_cons_of_mem _ hm))
      (fun hm => hid (List.mem_cons_of_mem _ hm)) ht
    rw [hab, this]

theorem infix_skip_barfree {α : Type} (bar : α) (y z : List α) :
    ∀ (u : List α), bar ∉ u → (bar :: y) <:+: u ++ z → (bar :: y) <:+: z
  | [], _, h => by simpa using h
  | a :: u, hu, h => by
    simp only [List.cons_append] at h
    rcases List.infix_cons_iff.mp h with h1 | h1
    · have := (List.cons_prefix_cons.mp h1).1
      exact absurd (this ▸ List.mem_cons_self _ _) hu
    · exact infix_skip_barfree bar y z u (fun hm => hu (List.mem_cons_of_mem _ hm)) h1

theorem mem_of_infix_segments {α : Type} (bar : α) (p : List α) (hp : bar ∉ p) :
    ∀ (ids : List (List α)), (∀ id ∈ ids, bar ∉ id) →
      (bar :: (p ++ [bar])) <:+: bar :: segments bar ids → p ∈ ids
  | [], _, h => by
    simp only [segments, List.flatMap_nil] at h
    have := h.length_le
    simp at this
  | id :: ids, hids, h => by
    have hseg : segments bar (id :: ids) = id ++ bar :: segments bar ids := by
      simp [segments, List.flatMap_cons]
    rw [hseg] at h
    rcases List.infix_cons_iff.mp h with h1 | h1
    · have h2 := (List.cons_prefix_cons.mp h1).2
      have := prefix_segment_eq bar _ p id hp (hids id (List.mem_cons_self _ _)) h2
      rw [this]; exact List.mem_cons_self _ _
    · have h2 := infix_skip_barfree bar _ _ id (hids id (List.mem_cons_self _ _)) h1
      exact List.mem_cons_of_mem _
        (mem_of_infix_segments bar p hp ids (fun x hx => hids x (List.mem_cons_of_mem _ hx)) h2)

theorem infix_segments_of_mem {α : Type} (bar : α) (p : List α) :
    ∀ (ids : List (List α)), p ∈ ids → (bar :: (p ++ [bar])) <:+: bar :: segments bar ids
  | [], h => by simp at h
  | id :: ids, h => by
    have hseg : segments bar (id :: ids) = id ++ bar :: segments bar ids := by
      simp [segments, List.flatMap_cons]
    rw [hseg]
    rcases List.mem_cons.mp h with h1 | h1
    · subst h1
      refine List.IsPrefix.isInfix ?_
      refine ⟨segments bar ids, ?_⟩
      simp
    · have ih := infix_segments_of_mem bar p ids h1
      refine ih.trans (List.IsSuffix.isInfix ?_)
      exact ⟨bar :: id, by simp⟩

theorem stringsJoin_data (ids : List String) (h : ids ≠ []) :
    ("|" ++ stringsJoin "|" ids ++ "|").data = '|' :: segments '|' (ids.map String.data) := by
  have key : ∀ (ids : List String), ids ≠ [] →
      (stringsJoin "|" ids).data ++ ['|'] = segments '|' (ids.map String.data) := by
    intro ids
    induction ids with
    | nil => intro h; exact absurd rfl h
    | cons a rest ih =>
      intro _
      cases rest with
      | nil => simp [stringsJoin, segments]
      | cons b rest =>
        have := ih (by simp)
        simp only [stringsJoin, String.data_append, List.map_cons, segments, List.flatMap_cons,
          List.append_assoc] at this ⊢
        rw [this]
  have := key ids h
  simp only [String.data_append]
  rw [List.append_assoc, this]
  rfl

theorem applyChange_frame (parseRFC3339 : String → Except String Time) (faults : Faults)
    (change : Change) (w : World) (l : Locals) :
    (applyChange parseRFC3339 faults change w l).world.cache.largestChangeID
        = w.cache.largestChangeID ∧
    (applyChange parseRFC3339 faults change w l).locals.pageToken = l.pageToken ∧
    (applyChange parseRFC3339 faults change w l).locals.largestChangeID = l.largestChangeID := by
  unfold applyChange
  by_cases hd : isDeletion change = true
  · simp [hd, World.logs, World.call, Cache.DeleteObject]
  · cases hf : change.File with
    | none => simp [hd, World.logs]
    | some file =>
      rcases hm : Drive.mapFileToObject parseRFC3339 file with ⟨res, evs⟩
      cases res with
      | error err => simp [hd, hm, World.logs]
      | ok object =>
        simp only [hd, hm, World.logs, World.call, Cache.UpdateObject]
        cases hu : faults.updateObject w.cache object <;> simp

theorem applyChange_panicked (parseRFC3339 : String → Except String Time) (faults : Faults)
    (change : Change) (w : World) (l : Locals) :
    (applyChange parseRFC3339 faults change w l).panicked = !change.hasFile := by
  unfold applyChange Change.hasFile isDeletion
  cases hdel : change.Deleted
  · cases hf : change.File with
    | none => simp
    | some file =>
      rcases hm : Drive.mapFileToObject parseRFC3339 file with ⟨res, evs⟩
      cases res <;> cases ht : file.ExplicitlyTrashed <;> simp [hm, ht]
  · simp

theorem applyChange_calls (parseRFC3339 : String → Except String Time) (faults : Faults)
    (change : Change) (w : World) (l : Locals) :
    (applyChange parseRFC3339 faults change w l).world.calls
      = w.calls ++ (callOfChange parseRFC3339 change).toList := by
  unfold applyChange callOfChange
  by_cases hd : isDeletion change = true
  · simp [hd, World.logs, World.call]
  · cases hf : change.File with
    | none => simp [hd, World.logs]
    | some file =>
      rcases hm : Drive.mapFileToObject parseRFC3339 file with ⟨res, evs⟩
      cases res with
      | error err => simp [hd, hm, World.logs]
      | ok object =>
        simp only [hd, hm, World.logs, World.call, Cache.UpdateObject]
        cases hu : faults.updateObject w.cache object <;> simp

theorem applyItems_frame (parseRFC3339 : String → Except String Time) (faults : Faults) :
    ∀ (items : List Change) (w : World) (l : Locals),
      (applyItems parseRFC3339 faults items w l).world.cache.largestChangeID
          = w.cache.largestChangeID ∧
      (applyItems parseRFC3339 faults items w l).locals.pageToken = l.pageToken ∧
      (applyItems parseRFC3339 faults items w l).locals.largestChangeID = l.largestChangeID
  | [], w, l => by simp [applyItems]
  | change :: rest, w, l => by
    have hs := applyChange_frame parseRFC3339 faults change w l
    unfold applyItems
    simp only []
    split
    · exact hs
    · have ih := applyItems_frame parseRFC3339 faults rest
        (applyChange parseRFC3339 faults change w l).world
        (applyChange parseRFC3339 faults change w l).locals
      exact ⟨ih.1.trans hs.1, ih.2.1.trans hs.2.1, ih.2.2.trans hs.2.2⟩

theorem applyItems_panicked (parseRFC3339 : String → Except String Time) (faults : Faults) :
    ∀ (items : List Change) (w : World) (l : Locals),
      (∀ change ∈ items, change.hasFile = true) →
      (applyItems parseRFC3339 faults items w l).panicked = false
  | [], w, l, _ => by simp [applyItems]
  | change :: rest, w, l, h => by
    have hs : (applyChange parseRFC3339 faults change w l).panicked = false := by
      rw [applyChange_panicked, h change (List.mem_cons_self _ _)]; rfl
    unfold applyItems
    simp only [hs, Bool.false_eq_true, if_false]
    exact applyItems_panicked parseRFC3339 faults rest _ _
      (fun c hc => h c (List.mem_cons_of_mem _ hc))

theorem applyItems_calls (parseRFC3339 : String → Except String Time) (faults : Faults) :
    ∀ (items : List Change) (w : World) (l : Locals),
      (∀ change ∈ items, change.hasFile = true) →
      (applyItems parseRFC3339 faults items w l).world.calls
        = w.calls ++ items.filterMap (callOfChange parseRFC3339)
  | [], w, l, _ => by simp [applyItems]
  | change :: rest, w, l, h => by
    have hp : (applyChange parseRFC3339 faults change w l).panicked = false := by
      rw [applyChange_panicked, h change (List.mem_cons_self _ _)]; rfl
    have hc := applyChange_calls parseRFC3339 faults change w l
    unfold applyItems
    simp only [hp, Bool.false_eq_true, if_false]
    rw [applyItems_calls parseRFC3339 faults rest _ _
      (fun c hc => h c (List.mem_cons_of_mem _ hc)), hc]
    cases hcc : callOfChange parseRFC3339 change <;> simp [List.filterMap_cons, hcc]

theorem applyPage_cursor (parseRFC3339 : String → Except String Time) (faults : Faults)
    (results : ChangeList) (w : World) (l : Locals) :
    (applyPage parseRFC3339 faults results w l).world.cache.largestChangeID
      = w.cache.largestChangeID := by
  have hf := (applyItems_frame parseRFC3339 faults results.Items w l).1
  unfold applyPage
  simp only []
  split
  · exact hf
  · split <;> simpa [World.logs] using hf

theorem applyPage_panicked (parseRFC3339 : String → Except String Time) (faults : Faults)
    (results : ChangeList) (w : World) (l : Locals)
    (h : ∀ change ∈ results.Items, change.hasFile = true) :
    (applyPage parseRFC3339 faults results w l).panicked = false := by
  have hp := applyItems_panicked parseRFC3339 faults results.Items w l h
  unfold applyPage
  simp [hp]

theorem applyPage_locals (parseRFC3339 : String → Except String Time) (faults : Faults)
    (results : ChangeList) (w : World) (l : Locals)
    (h : (applyPage parseRFC3339 faults results w l).panicked = false) :
    (applyPage parseRFC3339 faults results w l).locals.pageToken = results.NextPageToken ∧
    (applyPage parseRFC3339 faults results w l).locals.largestChangeID
      = results.LargestChangeId := by
  unfold applyPage at h ⊢
  simp only [] at h ⊢
  split
  · rename_i hp
    rw [if_pos hp] at h
    rw [hp] at h
    exact absurd h (by simp)
  · simp

theorem applyPage_calls (parseRFC3339 : String → Except String Time) (faults : Faults)
    (results : ChangeList) (w : World) (l : Locals)
    (h : ∀ change ∈ results.Items, change.hasFile = true) :
    (applyPage parseRFC3339 faults results w l).world.calls
      = w.calls ++ results.Items.filterMap (callOfChange parseRFC3339) := by
  have hp := applyItems_panicked parseRFC3339 faults results.Items w l h
  have hc := applyItems_calls parseRFC3339 faults results.Items w l h
  unfold applyPage
  simp only [hp, Bool.false_eq_true, if_false]
  split <;> simpa [World.logs] using hc

theorem pageLoop_cursor (parseRFC3339 : String → Except String Time) (faults : Faults)
    (changeID : Int) :
    ∀ (remote : Remote) (w : World) (l : Locals),
      (pageLoop parseRFC3339 faults changeID remote w l).world.cache.largestChangeID
        = w.cache.largestChangeID
  | [], w, l => by simp [pageLoop, World.logs, World.call]
  | answer :: remote, w, l => by
    unfold pageLoop
    simp only []
    cases ha : answer (buildQuery l.pageToken changeID) with
    | error err => simp [World.logs, World.call]
    | ok results =>
      have hf := applyPage_cursor parseRFC3339 faults results
        (w.call (Call.ChangesListDo (buildQuery l.pageToken changeID))) l
      have hw : (w.call (Call.ChangesListDo (buildQuery l.pageToken changeID))).cache = w.cache :=
        rfl
      rw [hw] at hf
      simp only []
      split
      · exact hf
      · split
        · exact hf
        · rw [pageLoop_cursor parseRFC3339 faults changeID remote]
          exact hf

theorem pageLoop_panicked (parseRFC3339 : String → Except String Time) (faults : Faults)
    (changeID : Int) :
    ∀ (remote : Remote) (w : World) (l : Locals),
      (∀ results ∈ fetchedPages changeID remote l.pageToken,
        ∀ change ∈ results.Items, change.hasFile = true) →
      (pageLoop parseRFC3339 faults changeID remote w l).panicked = false
  | [], w, l, _ => by simp [pageLoop]
  | answer :: remote, w, l, h => by
    unfold pageLoop
    unfold fetchedPages at h
    simp only []
    cases ha : answer (buildQuery l.pageToken changeID) with
    | error err => simp
    | ok results =>
      simp only [ha] at h
      have hp := applyPage_panicked parseRFC3339 faults results
        (w.call (Call.ChangesListDo (buildQuery l.pageToken changeID))) l
        (h results (List.mem_cons_self _ _))
      have hl := (applyPage_locals parseRFC3339 faults results
        (w.call (Call.ChangesListDo (buildQuery l.pageToken changeID))) l hp).1
      simp only [hp, Bool.false_eq_true, if_false, hl]
      by_cases ht : "" = results.NextPageToken
      · simp [ht, hp]
      · simp only [ht, if_false]
        apply pageLoop_panicked parseRFC3339 faults changeID remote
        rw [hl]
        intro r hr
        apply h r
        simp only [ht, if_false]
        exact List.mem_cons_of_mem _ hr

theorem pageLoop_largest (parseRFC3339 : String → Except String Time) (faults : Faults)
    (changeID : Int) :
    ∀ (remote : Remote) (w : World) (l : Locals),
      (pageLoop parseRFC3339 faults changeID remote w l).panicked = false →
      (pageLoop parseRFC3339 faults changeID remote w l).locals.largestChangeID =
        match (fetchedPages changeID remote l.pageToken).getLast? with
        | some results => results.LargestChangeId
        | none => l.largestChangeID
  | [], w, l, _ => by simp [pageLoop, fetchedPages]
  | answer :: remote, w, l, h => by
    unfold pageLoop at h ⊢
    unfold fetchedPages
    simp only [] at h ⊢
    cases ha : answer (buildQuery l.pageToken changeID) with
    | error err => simp
    | ok results =>
      simp only [ha] at h ⊢
      by_cases hp : (applyPage parseRFC3339 faults results
        (w.call (Call.ChangesListDo (buildQuery l.pageToken changeID))) l).panicked = true
      · simp [hp] at h
      · have hp2 : (applyPage parseRFC3339 faults results
          (w.call (Call.ChangesListDo (buildQuery l.pageToken changeID))) l).panicked = false := by
          simpa using hp
        have hl := applyPage_locals parseRFC3339 faults results
          (w.call (Call.ChangesListDo (buildQuery l.pageToken changeID))) l hp2
        simp only [hp2, Bool.false_eq_true, if_false, hl.1] at h ⊢
        by_cases ht : "" = results.NextPageToken
        · simp [ht, hl.2]
        · simp only [ht, if_false] at h ⊢
          rw [pageLoop_largest parseRFC3339 faults changeID remote _ _ h, hl.1, hl.2]
          simp only [List.getLast?_cons]
          cases hg : (fetchedPages changeID remote results.NextPageToken).getLast? <;> simp

theorem wrapInt64_eq (x : Int) (h : inInt64 x) : wrapInt64 x = x := by
  unfold inInt64 maxInt64 at h
  unfold wrapInt64
  omega

theorem wrapInt64_ge (x : Int) : -2 ^ 63 ≤ wrapInt64 x := by
  unfold wrapInt64
  omega

theorem checkChanges_cursor (parseRFC3339 : String → Except String Time) (faults : Faults)
    (remote : Remote) (firstCheck : Bool) (cache : Cache)
    (hread : faults.getLargestChangeID = none) :
    (checkChanges parseRFC3339 faults remote firstCheck cache).panicked = false →
    (checkChanges parseRFC3339 faults remote firstCheck cache).cache.largestChangeID =
      if finalLargestChangeID cache.largestChangeID remote ≥ cache.largestChangeID then
        wrapInt64 (finalLargestChangeID cache.largestChangeID remote + 1)
      else cache.largestChangeID := by
  unfold checkChanges
  simp only [Cache.GetLargestChangeID, hread, World.logs, World.call]
  generalize hw : (if firstCheck = true then
      ({ cache := cache, calls := [] ++ [Call.GetLargestChangeID],
         log := [] ++ [LogEvent.debugCheckingForChanges] ++
           [LogEvent.infoFirstCacheBuildStarted] } : World)
    else { cache := cache, calls := [] ++ [Call.GetLargestChangeID],
           log := [] ++ [LogEvent.debugCheckingForChanges] }) = w
  have hwc : w.cache.largestChangeID = cache.largestChangeID := by
    rw [← hw]; split <;> rfl
  have hcur := pageLoop_cursor parseRFC3339 faults cache.largestChangeID remote w
    ⟨0, 0, 0, "", cache.largestChangeID⟩
  have hlar := pageLoop_largest parseRFC3339 faults cache.largestChangeID remote w
    ⟨0, 0, 0, "", cache.largestChangeID⟩
  generalize pageLoop parseRFC3339 faults cache.largestChangeID remote w
    ⟨0, 0, 0, "", cache.largestChangeID⟩ = o at hcur hlar
  cases hp : o.panicked
  · intro _
    have hl := hlar hp
    simp only [] at hl
    have hfin : o.locals.largestChangeID = finalLargestChangeID cache.largestChangeID remote := by
      rw [hl]; rfl
    simp only [Bool.false_eq_true, if_false, hfin]
    by_cases hge : finalLargestChangeID cache.largestChangeID remote ≥ cache.largestChangeID
    · simp only [hge, if_true]
      split <;> rfl
    · simp only [hge, if_false]
      split <;> simp [hcur, hwc]
  · intro h; simp at h

theorem fetchedPages_ne_nil (changeID : Int) (remote : Remote) (pageToken : String)
    (h : fetchFails changeID remote pageToken = false) :
    fetchedPages changeID remote pageToken ≠ [] := by
  cases remote with
  | nil => simp [fetchFails] at h
  | cons answer remote =>
    unfold fetchFails at h
    unfold fetchedPages
    cases ha : answer (buildQuery pageToken changeID) with
    | error err => simp [ha] at h
    | ok results => simp

theorem checkChanges_panicked (parseRFC3339 : String → Except String Time) (faults : Faults)
    (remote : Remote) (firstCheck : Bool) (cache : Cache)
    (hfile : ∀ results ∈ fetchedPages cache.largestChangeID remote "",
      ∀ change ∈ results.Items, change.hasFile = true) :
    (checkChanges parseRFC3339 faults remote firstCheck cache).panicked = false := by
  have key : ∀ w : World,
      (pageLoop parseRFC3339 faults cache.largestChangeID remote w
        ⟨0, 0, 0, "", cache.largestChangeID⟩).panicked = false :=
    fun w => pageLoop_panicked parseRFC3339 faults cache.largestChangeID remote w _ hfile
  unfold checkChanges
  cases hread : faults.getLargestChangeID with
  | some e => simp [Cache.GetLargestChangeID, hread]
  | none =>
    cases firstCheck <;>
      simp [Cache.GetLargestChangeID, hread, World.logs, World.call, key]

theorem checkChanges_cursor_cases (parseRFC3339 : String → Except String Time)
    (faults : Faults) (remote : Remote) (firstCheck : Bool) (cache : Cache) :
    (checkChanges parseRFC3339 faults remote firstCheck cache).cache.largestChangeID
        = cache.largestChangeID ∨
    (finalLargestChangeID cache.largestChangeID remote ≥ cache.largestChangeID ∧
      (checkChanges parseRFC3339 faults remote firstCheck cache).cache.largestChangeID
        = wrapInt64 (finalLargestChangeID cache.largestChangeID remote + 1)) := by
  cases hread : faults.getLargestChangeID with
  | some e =>
    left
    unfold checkChanges
    simp [Cache.GetLargestChangeID, hread, World.logs, World.call]
  | none =>
    cases hp : (checkChanges parseRFC3339 faults remote firstCheck cache).panicked
    · have h := checkChanges_cursor parseRFC3339 faults remote firstCheck cache hread hp
      by_cases hge : finalLargestChangeID cache.largestChangeID remote ≥ cache.largestChangeID
      · right
        rw [if_pos hge] at h
        exact ⟨hge, h⟩
      · left
        rw [if_neg hge] at h
        exact h
    · left
      unfold checkChanges at hp ⊢
      cases firstCheck <;>
        simp only [Cache.GetLargestChangeID, hread, World.logs, World.call, Bool.false_eq_true,
          if_false, if_true] at hp ⊢ <;>
        split <;> rename_i hq <;>
        first
          | (simp only []; rw [pageLoop_cursor])
          | (rw [if_neg hq] at hp; simp at hp)

theorem applyChange_effects (parseRFC3339 : String → Except String Time) (faults : Faults)
    (change : Change) (w w' : World) (l : Locals)
    (hc : w.cache = w'.cache) (hk : w.calls = w'.calls) :
    (applyChange parseRFC3339 faults change w l).sameEffects
      (applyChange parseRFC3339 faults change w' l) := by
  rcases w with ⟨c, k, g⟩
  rcases w' with ⟨c', k', g'⟩
  simp only at hc hk
  subst hc hk
  unfold Outcome.sameEffects applyChange
  by_cases hd : isDeletion change = true
  · simp [hd, World.logs, World.call]
  · cases hf : change.File with
    | none => simp [hd, World.logs]
    | some file =>
      rcases hm : Drive.mapFileToObject parseRFC3339 file with ⟨res, evs⟩
      cases res with
      | error err => simp [hd, hm, World.logs]
      | ok object =>
        simp only [hd, hm, World.logs, World.call, Cache.UpdateObject]
        cases hu : faults.updateObject c object <;> simp

theorem applyItems_effects (parseRFC3339 : String → Except String Time) (faults : Faults) :
    ∀ (items : List Change) (w w' : World) (l : Locals),
      w.cache = w'.cache → w.calls = w'.calls →
      (applyItems parseRFC3339 faults items w l).sameEffects
        (applyItems parseRFC3339 faults items w' l)
  | [], w, w', l, hc, hk => by simp [applyItems, Outcome.sameEffects, hc, hk]
  | change :: rest, w, w', l, hc, hk => by
    have hs := applyChange_effects parseRFC3339 faults change w w' l hc hk
    unfold applyItems
    simp only []
    generalize applyChange parseRFC3339 faults change w l = o at hs
    generalize applyChange parseRFC3339 faults change w' l = o' at hs
    obtain ⟨h1, h2, h3, h4⟩ := hs
    cases hp : o.panicked
    · rw [← h4, hp]
      simp only [Bool.false_eq_true, if_false]
      rw [h3]
      exact applyItems_effects parseRFC3339 faults rest o.world o'.world o'.locals h1 h2
    · rw [← h4, hp]
      simp only [if_true]
      exact ⟨h1, h2, h3, h4⟩

theorem applyPage_effects (parseRFC3339 : String → Except String Time) (faults : Faults)
    (results : ChangeList) (w w' : World) (l : Locals)
    (hc : w.cache = w'.cache) (hk : w.calls = w'.calls) :
    (applyPage parseRFC3339 faults results w l).sameEffects
      (applyPage parseRFC3339 faults results w' l) := by
  have hs := applyItems_effects parseRFC3339 faults results.Items w w' l hc hk
  unfold applyPage
  simp only []
  generalize applyItems parseRFC3339 faults results.Items w l = o at hs
  generalize applyItems parseRFC3339 faults results.Items w' l = o' at hs
  obtain ⟨h1, h2, h3, h4⟩ := hs
  cases hp : o.panicked
  · rw [← h4, hp]
    simp only [Bool.false_eq_true, if_false, h3]
    unfold Outcome.sameEffects
    refine ⟨?_, ?_, rfl, rfl⟩
    · split <;> simpa [World.logs] using h1
    · split <;> simpa [World.logs] using h2
  · rw [← h4, hp]
    simp only [if_true]
    exact ⟨h1, h2, h3, h4⟩

theorem pageLoop_effects (parseRFC3339 : String → Except String Time) (faults : Faults)
    (changeID : Int) :
    ∀ (remote : Remote) (w w' : World) (l : Locals),
      w.cache = w'.cache → w.calls = w'.calls →
      (pageLoop parseRFC3339 faults changeID remote w l).sameEffects
        (pageLoop parseRFC3339 faults changeID remote w' l)
  | [], w, w', l, hc, hk => by
    simp [pageLoop, Outcome.sameEffects, World.logs, World.call, hc, hk]
  | answer :: remote, w, w', l, hc, hk => by
    unfold pageLoop
    simp only []
    cases ha : answer (buildQuery l.pageToken changeID) with
    | error err => simp [Outcome.sameEffects, World.logs, World.call, hc, hk]
    | ok results =>
      have hs := applyPage_effects parseRFC3339 faults results
        (w.call (Call.ChangesListDo (buildQuery l.pageToken changeID)))
        (w'.call (Call.ChangesListDo (buildQuery l.pageToken changeID))) l
        (by simpa [World.call] using hc) (by simp [World.call, hk])
      simp only []
      generalize applyPage parseRFC3339 faults results
        (w.call (Call.ChangesListDo (buildQuery l.pageToken changeID))) l = o at hs
      generalize applyPage parseRFC3339 faults results
        (w'.call (Call.ChangesListDo (buildQuery l.pageToken changeID))) l = o' at hs
      obtain ⟨h1, h2, h3, h4⟩ := hs
      cases hp : o.panicked
      · rw [← h4, hp]
        simp only [Bool.false_eq_true, if_false, h3]
        by_cases ht : "" = o'.locals.pageToken
        · simp only [ht, if_true]
          exact ⟨h1, h2, h3, h4⟩
        · simp only [ht, if_false]
          exact pageLoop_effects parseRFC3339 faults changeID remote o.world o'.world
            o'.locals h1 h2
      · rw [← h4, hp]
        simp only [if_true]
        exact ⟨h1, h2, h3, h4⟩

theorem pageLoop_calls_filter (parseRFC3339 : String → Except String Time) (faults : Faults)
    (changeID : Int) (p : Call → Bool) (hp : ∀ q, p (Call.ChangesListDo q) = false) :
    ∀ (remote : Remote) (w : World) (l : Locals),
      (∀ results ∈ fetchedPages changeID remote l.pageToken,
        ∀ change ∈ results.Items, change.hasFile = true) →
      (pageLoop parseRFC3339 faults changeID remote w l).world.calls.filter p =
        w.calls.filter p ++
          (((fetchedPages changeID remote l.pageToken).flatMap
            (fun results => results.Items)).filterMap (callOfChange parseRFC3339)).filter p
  | [], w, l, _ => by simp [pageLoop, fetchedPages, World.logs, World.call, hp]
  | answer :: remote, w, l, h => by
    unfold pageLoop
    unfold fetchedPages at h ⊢
    simp only []
    cases ha : answer (buildQuery l.pageToken changeID) with
    | error err => simp [World.logs, World.call, hp]
    | ok results =>
      simp only [ha] at h
      have hf := h results (List.mem_cons_self _ _)
      have hpan := applyPage_panicked parseRFC3339 faults results
        (w.call (Call.ChangesListDo (buildQuery l.pageToken changeID))) l hf
      have hl := (applyPage_locals parseRFC3339 faults results
        (w.call (Call.ChangesListDo (buildQuery l.pageToken changeID))) l hpan).1
      have hc := applyPage_calls parseRFC3339 faults results
        (w.call (Call.ChangesListDo (buildQuery l.pageToken changeID))) l hf
      simp only [hpan, Bool.false_eq_true, if_false, hl]
      by_cases ht : "" = results.NextPageToken
      · rw [if_pos ht, hc]
        simp [ht, World.call, hp]
      · simp only [ht, if_false] at h ⊢
        rw [pageLoop_calls_filter parseRFC3339 faults changeID p hp remote, hl, hc]
        · simp [World.call, hp]
        · rw [hl]
          intro r hr
          exact h r (List.mem_cons_of_mem _ hr)

theorem filter_isMutation_callOfChange (parseRFC3339 : String → Except String Time)
    (changes : List Change) :
    (changes.filterMap (callOfChange parseRFC3339)).filter Call.isMutation
      = changes.filterMap (callOfChange parseRFC3339) := by
  rw [List.filter_eq_self]
  intro call hcall
  obtain ⟨change, _, hch⟩ := List.mem_filterMap.mp hcall
  unfold callOfChange at hch
  split at hch
  · cases hch; rfl
  · split at hch
    · cases hch
    · split at hch
      · cases hch
      · cases hch; rfl

theorem filter_isStore_callOfChange (parseRFC3339 : String → Except String Time)
    (changes : List Change) :
    (changes.filterMap (callOfChange parseRFC3339)).filter Call.isStore = [] := by
  rw [List.filter_eq_nil_iff]
  intro call hcall
  obtain ⟨change, _, hch⟩ := List.mem_filterMap.mp hcall
  unfold callOfChange at hch
  split at hch
  · cases hch; simp [Call.isStore]
  · split at hch
    · cases hch
    · split at hch
      · cases hch
      · cases hch; simp [Call.isStore]

theorem checkChanges_calls_filter (parseRFC3339 : String → Except String Time)
    (faults : Faults) (remote : Remote) (firstCheck : Bool) (cache : Cache)
    (p : Call → Bool) (hp : ∀ q, p (Call.ChangesListDo q) = false)
    (hread : faults.getLargestChangeID = none)
    (hfile : ∀ results ∈ fetchedPages cache.largestChangeID remote "",
      ∀ change ∈ results.Items, change.hasFile = true) :
    (checkChanges parseRFC3339 faults remote firstCheck cache).calls.filter p =
      [Call.GetLargestChangeID].filter p ++
      ((fetchedChanges cache.largestChangeID remote).filterMap
        (callOfChange parseRFC3339)).filter p ++
      (if finalLargestChangeID cache.largestChangeID remote ≥ cache.largestChangeID then
        [Call.StoreLargestChangeID
          (wrapInt64 (finalLargestChangeID cache.largestChangeID remote + 1))].filter p
       else []) := by
  have hpan : ∀ w : World,
      (pageLoop parseRFC3339 faults cache.largestChangeID remote w
        ⟨0, 0, 0, "", cache.largestChangeID⟩).panicked = false :=
    fun w => pageLoop_panicked parseRFC3339 faults cache.largestChangeID remote w _ hfile
  have hlar : ∀ w : World,
      (pageLoop parseRFC3339 faults cache.largestChangeID remote w
        ⟨0, 0, 0, "", cache.largestChangeID⟩).locals.largestChangeID
        = finalLargestChangeID cache.largestChangeID remote :=
    fun w => by
      rw [pageLoop_largest parseRFC3339 faults cache.largestChangeID remote w _ (hpan w)]
      rfl
  have hcalls : ∀ w : World,
      (pageLoop parseRFC3339 faults cache.largestChangeID remote w
        ⟨0, 0, 0, "", cache.largestChangeID⟩).world.calls.filter p =
        w.calls.filter p ++ ((fetchedChanges cache.largestChangeID remote).filterMap
          (callOfChange parseRFC3339)).filter p :=
    fun w => pageLoop_calls_filter parseRFC3339 faults cache.largestChangeID p hp remote w _ hfile
  unfold checkChanges
  cases firstCheck <;>
    simp only [Cache.GetLargestChangeID, hread, World.logs, World.call, hpan, hlar,
      Bool.false_eq_true, if_false, if_true] <;>
    split <;>
    simp [List.filter_append, hcalls]

theorem applyChange_cache (parseRFC3339 : String → Except String Time) (faults : Faults)
    (hnf : ∀ c o, faults.updateObject c o = none)
    (change : Change) (w : World) (l : Locals) :
    (applyChange parseRFC3339 faults change w l).world.cache
      = (callOfChange parseRFC3339 change).toList.foldl Cache.afterCall w.cache := by
  unfold applyChange callOfChange
  by_cases hd : isDeletion change = true
  · simp [hd, World.logs, World.call, Cache.afterCall]
  · cases hf : change.File with
    | none => simp [hd, World.logs]
    | some file =>
      rcases hm : Drive.mapFileToObject parseRFC3339 file with ⟨res, evs⟩
      cases res with
      | error err => simp [hd, hm, World.logs]
      | ok object =>
        simp [hd, hm, World.logs, World.call, Cache.UpdateObject, hnf, Cache.afterCall]

theorem applyItems_cache (parseRFC3339 : String → Except String Time) (faults : Faults)
    (hnf : ∀ c o, faults.updateObject c o = none) :
    ∀ (items : List Change) (w : World) (l : Locals),
      (∀ change ∈ items, change.hasFile = true) →
      (applyItems parseRFC3339 faults items w l).world.cache
        = (items.filterMap (callOfChange parseRFC3339)).foldl Cache.afterCall w.cache
  | [], w, l, _ => by simp [applyItems]
  | change :: rest, w, l, h => by
    have hp : (applyChange parseRFC3339 faults change w l).panicked = false := by
      rw [applyChange_panicked, h change (List.mem_cons_self _ _)]; rfl
    have hc := applyChange_cache parseRFC3339 faults hnf change w l
    unfold applyItems
    simp only [hp, Bool.false_eq_true, if_false]
    rw [applyItems_cache parseRFC3339 faults hnf rest _ _
      (fun c hc => h c (List.mem_cons_of_mem _ hc)), hc]
    cases hcc : callOfChange parseRFC3339 change <;> simp [List.filterMap_cons, hcc]

theorem applyPage_cache (parseRFC3339 : String → Except String Time) (faults : Faults)
    (hnf : ∀ c o, faults.updateObject c o = none)
    (results : ChangeList) (w : World) (l : Locals)
    (h : ∀ change ∈ results.Items, change.hasFile = true) :
    (applyPage parseRFC3339 faults results w l).world.cache
      = (results.Items.filterMap (callOfChange parseRFC3339)).foldl Cache.afterCall w.cache := by
  have hp := applyItems_panicked parseRFC3339 faults results.Items w l h
  have hc := applyItems_cache parseRFC3339 faults hnf results.Items w l h
  unfold applyPage
  simp only [hp, Bool.false_eq_true, if_false]
  split <;> simpa [World.logs] using hc

theorem pageLoop_cache (parseRFC3339 : String → Except String Time) (faults : Faults)
    (hnf : ∀ c o, faults.updateObject c o = none) (changeID : Int) :
    ∀ (remote : Remote) (w : World) (l : Locals),
      (∀ results ∈ fetchedPages changeID remote l.pageToken,
        ∀ change ∈ results.Items, change.hasFile = true) →
      (pageLoop parseRFC3339 faults changeID remote w l).world.cache =
        (((fetchedPages changeID remote l.pageToken).flatMap
          (fun results => results.Items)).filterMap
            (callOfChange parseRFC3339)).foldl Cache.afterCall w.cache
  | [], w, l, _ => by simp [pageLoop, fetchedPages, World.logs, World.call]
  | answer :: remote, w, l, h => by
    unfold pageLoop
    unfold fetchedPages at h ⊢
    simp only []
    cases ha : answer (buildQuery l.pageToken changeID) with
    | error err => simp [World.logs, World.call]
    | ok results =>
      simp only [ha] at h
      have hf := h results (List.mem_cons_self _ _)
      have hpan := applyPage_panicked parseRFC3339 faults results
        (w.call (Call.ChangesListDo (buildQuery l.pageToken changeID))) l hf
      have hl := (applyPage_locals parseRFC3339 faults results
        (w.call (Call.ChangesListDo (buildQuery l.pageToken changeID))) l hpan).1
      have hc := applyPage_cache parseRFC3339 faults hnf results
        (w.call (Call.ChangesListDo (buildQuery l.pageToken changeID))) l hf
      simp only [hpan, Bool.false_eq_true, if_false, hl]
      by_cases ht : "" = results.NextPageToken
      · rw [if_pos ht, hc]
        simp [ht, World.call]
      · simp only [ht, if_false] at h ⊢
        rw [pageLoop_cache parseRFC3339 faults hnf changeID remote, hl, hc]
        · simp [World.call, List.filterMap_append]
        · rw [hl]
          intro r hr
          exact h r (List.mem_cons_of_mem _ hr)

theorem getObject_afterCall_other (c : Cache) (call : Call) (id : String)
    (h : call.objectID ≠ some id) :
    (c.afterCall call).GetObject id = c.GetObject id := by
  cases call with
  | DeleteObject id' =>
    have hne : id' ≠ id := fun e => h (by simp [Call.objectID, e])
    simp only [Cache.afterCall, Cache.DeleteObject, Cache.GetObject, List.find?_filter]
    congr 1
    funext o
    by_cases ho : o.ObjectID = id
    · have : o.ObjectID ≠ id' := fun e => hne (e.symm.trans ho)
      simp [ho, this]
      exact fun e => hne e.symm
    · simp [ho]
  | UpdateObject object =>
    have hne : object.ObjectID ≠ id := fun e => h (by simp [Call.objectID, e])
    simp only [Cache.afterCall, Cache.UpdateObject, Cache.GetObject]
    rw [List.find?_cons_of_neg _ (by simpa using hne), List.find?_filter]
    congr 1
    funext o
    by_cases ho : o.ObjectID = id
    · simp [ho]
      exact fun e => hne e.symm
    · simp [ho]
  | GetLargestChangeID => rfl
  | ChangesListDo q => rfl
  | StoreLargestChangeID v => rfl

theorem getObject_afterCall_target (c : Cache) (call : Call) (id : String)
    (hm : call.isMutation = true) (h : call.objectID = some id) :
    (c.afterCall call).GetObject id = call.record := by
  cases call with
  | DeleteObject id' =>
    simp only [Call.objectID, Option.some.injEq] at h
    subst h
    simp [Cache.afterCall, Cache.DeleteObject, Cache.GetObject, Call.record, List.find?_filter]
  | UpdateObject object =>
    simp only [Call.objectID, Option.some.injEq] at h
    subst h
    simp [Cache.afterCall, Cache.UpdateObject, Cache.GetObject, Call.record]
  | GetLargestChangeID => simp [Call.isMutation] at hm
  | ChangesListDo q => simp [Call.isMutation] at hm
  | StoreLargestChangeID v => simp [Call.isMutation] at hm

theorem getObject_foldl_other (id : String) :
    ∀ (calls : List Call) (c : Cache), (∀ call ∈ calls, call.objectID ≠ some id) →
      (calls.foldl Cache.afterCall c).GetObject id = c.GetObject id
  | [], _, _ => rfl
  | call :: calls, c, h => by
    rw [List.foldl_cons, getObject_foldl_other id calls _
      (fun x hx => h x (List.mem_cons_of_mem _ hx)),
      getObject_afterCall_other c call id (h call (List.mem_cons_self _ _))]

theorem getObject_last_call (c : Cache) (before after : List Call) (call : Call) (id : String)
    (hm : call.isMutation = true) (h : call.objectID = some id)
    (hafter : ∀ x ∈ after, x.objectID ≠ some id) :
    ((before ++ call :: after).foldl Cache.afterCall c).GetObject id = call.record := by
  rw [List.foldl_append, List.foldl_cons, getObject_foldl_other id after _ hafter,
    getObject_afterCall_target _ call id hm h]

theorem checkChanges_cursor_le (parseRFC3339 : String → Except String Time) (faults : Faults)
    (remote : Remote) (firstCheck : Bool) (cache : Cache)
    (hno : finalLargestChangeID cache.largestChangeID remote + 1 ≤ maxInt64) :
    cache.largestChangeID
      ≤ (checkChanges parseRFC3339 faults remote firstCheck cache).cache.largestChangeID := by
  rcases checkChanges_cursor_cases parseRFC3339 faults remote firstCheck cache with h | ⟨hge, h⟩
  · rw [h]
  · rw [h]
    have h1 := wrapInt64_ge (finalLargestChangeID cache.largestChangeID remote + 1)
    by_cases hlo : -2 ^ 63 ≤ finalLargestChangeID cache.largestChangeID remote + 1
    · rw [wrapInt64_eq _ ⟨hlo, hno⟩]
      omega
    · omega

theorem runChecks_cursor_le (parseRFC3339 : String → Except String Time) :
    ∀ (envs : List (Faults × Remote)) (firstCheck : Bool) (cache : Cache),
      incrementsFit parseRFC3339 envs firstCheck cache →
      cache.largestChangeID ≤ (runChecks parseRFC3339 envs firstCheck cache).largestChangeID
  | [], _, _, _ => le_refl _
  | (faults, remote) :: envs, firstCheck, cache, h => by
    obtain ⟨h1, h2⟩ := h
    have hstep := checkChanges_cursor_le parseRFC3339 faults remote firstCheck cache h1
    unfold runChecks
    simp only []
    split
    · exact hstep
    · exact le_trans hstep (runChecks_cursor_le parseRFC3339 envs false _ h2)

theorem checkChanges_objects (parseRFC3339 : String → Except String Time)
    (faults : Faults) (remote : Remote) (firstCheck : Bool) (cache : Cache)
    (hread : faults.getLargestChangeID = none)
    (hnf : ∀ c o, faults.updateObject c o = none)
    (hfile : ∀ results ∈ fetchedPages cache.largestChangeID remote "",
      ∀ change ∈ results.Items, change.hasFile = true) :
    (checkChanges parseRFC3339 faults remote firstCheck cache).cache.objects =
      (((fetchedChanges cache.largestChangeID remote).filterMap
        (callOfChange parseRFC3339)).foldl Cache.afterCall cache).objects := by
  have hpan : ∀ w : World,
      (pageLoop parseRFC3339 faults cache.largestChangeID remote w
        ⟨0, 0, 0, "", cache.largestChangeID⟩).panicked = false :=
    fun w => pageLoop_panicked parseRFC3339 faults cache.largestChangeID remote w _ hfile
  have hcache : ∀ w : World,
      (pageLoop parseRFC3339 faults cache.largestChangeID remote w
        ⟨0, 0, 0, "", cache.largestChangeID⟩).world.cache =
        ((fetchedChanges cache.largestChangeID remote).filterMap
          (callOfChange parseRFC3339)).foldl Cache.afterCall w.cache :=
    fun w => pageLoop_cache parseRFC3339 faults hnf cache.largestChangeID remote w _ hfile
  unfold checkChanges
  cases firstCheck <;>
    simp only [Cache.GetLargestChangeID, hread, World.logs, World.call, hpan,
      Bool.false_eq_true, if_false, if_true] <;>
    split <;>
    simp [hcache, Cache.StoreLargestChangeID]

/-! ## The claims -/

/-- Claim C1: `Drive.GetObjectByParentAndName(parent, name)` returns an error exactly when
`name` is one of `.git`, `HEAD`, `.Trash`, `.Trash-1000` or the cache's own lookup returns an
error; a blacklisted name yields an error whatever the cache would answer (also when it
holds such a record), and for any other name the result is the cache's result.  The cache's
lookup is arbitrary: the statement holds for every state of the cache. -/
theorem C1_blacklist_filter
    (cacheGetObjectByParentAndName : String → String → Except String APIObject)
    (parent name : String) :
    ((∃ err, Drive.GetObjectByParentAndName cacheGetObjectByParentAndName parent name
          = Except.error err) ↔
        (name ∈ [".git", "HEAD", ".Trash", ".Trash-1000"] ∨
          ∃ err, cacheGetObjectByParentAndName parent name = Except.error err)) ∧
    (name ∈ [".git", "HEAD", ".Trash", ".Trash-1000"] →
      ∃ err, Drive.GetObjectByParentAndName cacheGetObjectByParentAndName parent name
          = Except.error err) ∧
    (name ∉ [".git", "HEAD", ".Trash", ".Trash-1000"] →
      Drive.GetObjectByParentAndName cacheGetObjectByParentAndName parent name
        = cacheGetObjectByParentAndName parent name) := by
  have hl := lookup_blacklist name
  unfold Drive.GetObjectByParentAndName
  cases h : BlackListObjects.lookup name with
  | none =>
    have hn : name ∉ [".git", "HEAD", ".Trash", ".Trash-1000"] := by
      intro hm; have := hl.mpr hm; simp [h] at this
    refine ⟨?_, ?_, ?_⟩
    · simp [hn]
    · intro hm; exact absurd hm hn
    · intro _; rfl
  | some b =>
    have hm : name ∈ [".git", "HEAD", ".Trash", ".Trash-1000"] := hl.mp (by simp [h])
    refine ⟨?_, ?_, ?_⟩
    · constructor
      · intro _; exact Or.inl hm
      · intro _; exact ⟨_, rfl⟩
    · intro _; exact ⟨_, rfl⟩
    · intro hn; exact absurd hm hn

/-- Claim C2, the code at the failing inputs: when the first `query.Do()` fails, a run that
started with cursor 5 leaves the cursor at 6; when page 1 (`LargestChangeId = 1000`) is
applied and the fetch of page 2 fails, a run that started with cursor 0 leaves it at 1001.
The `break` of drive.go:107 falls through to the store of drive.go:146-148. -/
theorem C2_cursor_advances_after_failed_fetch :
    (fetchFails 5 [failedFetch] "" = true ∧
      (checkChanges parseNonEmpty noFaults [failedFetch] false ⟨[], 5⟩).cache.largestChangeID
        = 6) ∧
    (fetchFails 0 [page [⟨true, "z", none⟩] 1000 "page2", failedFetch] "" = true ∧
      (checkChanges parseNonEmpty noFaults
        [page [⟨true, "z", none⟩] 1000 "page2", failedFetch] false
        ⟨[], 0⟩).cache.largestChangeID = 1001) := by
  decide

/-- Claim C3 fails as stated: with cursor 5 and a single fetched page with
`LargestChangeId = 3` nothing is stored and the cursor stays 5, not `max(3, 5) + 1 = 6`;
with cursor 0 and two fetched pages with `LargestChangeId` 5 and then 3 the cursor becomes
4, not `max(5, 3, 0) + 1 = 6`; and with cursor 0 and a fetched page with
`LargestChangeId = 3` that holds an entry without `File` that is not a deletion, the run
panics and the cursor stays 0, not `max(3, 0) + 1 = 4`. -/
theorem C3_counterexample :
    (fetchFails 5 [page [] 3 ""] "" = false ∧
      (checkChanges parseNonEmpty noFaults [page [] 3 ""] false ⟨[], 5⟩).cache.largestChangeID
        = 5 ∧ (5 : Int) ≠ max 3 5 + 1) ∧
    (fetchFails 0 [page [] 5 "page2", page [] 3 ""] "" = false ∧
      (checkChanges parseNonEmpty noFaults [page [] 5 "page2", page [] 3 ""] false
        ⟨[], 0⟩).cache.largestChangeID = 4 ∧ (4 : Int) ≠ max (max 5 3) 0 + 1) ∧
    (fetchFails 0 nilFileRemote "" = false ∧
      (checkChanges parseNonEmpty noFaults nilFileRemote false ⟨[], 0⟩).panicked = true ∧
      (checkChanges parseNonEmpty noFaults nilFileRemote false ⟨[], 0⟩).cache.largestChangeID
        = 0 ∧ (0 : Int) ≠ max 3 0 + 1) := by
  decide

/-- Claim C3, amended: when the cursor `c` is read, every page of the run is fetched without
error, every entry that is not a deletion carries its `File`, and `L + 1` fits `int64`,
where `L` is the `LargestChangeId` of the last page fetched, the run ends normally and
the cursor after it is `max(L + 1, c)`: `L + 1` when `L >= c`, and `c` otherwise. -/
theorem C3_cursor_after_full_fetch (parseRFC3339 : String → Except String Time)
    (faults : Faults) (remote : Remote) (firstCheck : Bool) (cache : Cache)
    (hread : faults.getLargestChangeID = none)
    (hfetch : fetchFails cache.largestChangeID remote "" = false)
    (hfile : ∀ results ∈ fetchedPages cache.largestChangeID remote "",
      ∀ change ∈ results.Items, change.hasFile = true)
    (hno : inInt64 (finalLargestChangeID cache.largestChangeID remote + 1)) :
    (∃ last, (fetchedPages cache.largestChangeID remote "").getLast? = some last ∧
      finalLargestChangeID cache.largestChangeID remote = last.LargestChangeId) ∧
    (checkChanges parseRFC3339 faults remote firstCheck cache).panicked = false ∧
    (checkChanges parseRFC3339 faults remote firstCheck cache).cache.largestChangeID
      = max (finalLargestChangeID cache.largestChangeID remote + 1) cache.largestChangeID := by
  have hp := checkChanges_panicked parseRFC3339 faults remote firstCheck cache hfile
  have hc := checkChanges_cursor parseRFC3339 faults remote firstCheck cache hread hp
  refine ⟨?_, hp, ?_⟩
  · have hne := fetchedPages_ne_nil _ _ _ hfetch
    cases hg : (fetchedPages cache.largestChangeID remote "").getLast? with
    | none => exact absurd (List.getLast?_eq_none_iff.mp hg) hne
    | some last => exact ⟨last, rfl, by simp [finalLargestChangeID, hg]⟩
  · rw [hc]
    split
    · rw [wrapInt64_eq _ hno]
      omega
    · omega

/-- Claim C3 at the end-to-end scenario of the spec: cursor 0, one page of three entries
with `LargestChangeId = 3`; the cursor after the run is 4. -/
theorem C3_witness :
    fetchFails 0 scenarioRemote "" = false ∧
    (checkChanges parseNonEmpty noFaults scenarioRemote true ⟨[], 0⟩).panicked = false ∧
    (checkChanges parseNonEmpty noFaults scenarioRemote true ⟨[], 0⟩).cache.largestChangeID
      = 4 := by
  have h := C3_cursor_after_full_fetch parseNonEmpty noFaults scenarioRemote true ⟨[], 0⟩
    rfl (by decide) (by decide) (by decide)
  exact ⟨by decide, h.2.1, h.2.2.trans (by decide)⟩

/-- Claim C4 fails as stated: a run whose only entry cannot be mapped (its date does not
parse), and a run whose only `UpdateObject` returns an error, both call
`StoreLargestChangeID(4)` and leave the cursor at 4, not at its pre-run value 0. -/
theorem C4_counterexample :
    (fetchFails 0 [page [⟨false, "a", some (fileA "x" "")⟩] 3 ""] "" = false ∧
      (Drive.mapFileToObject parseNonEmpty (fileA "x" "")).1
        = Except.error "Could not parse last modified date" ∧
      Call.StoreLargestChangeID 4 ∈
        (checkChanges parseNonEmpty noFaults [page [⟨false, "a", some (fileA "x" "")⟩] 3 ""]
          false ⟨[], 0⟩).calls ∧
      (checkChanges parseNonEmpty noFaults [page [⟨false, "a", some (fileA "x" "")⟩] 3 ""]
          false ⟨[], 0⟩).cache.largestChangeID = 4) ∧
    ((⟨[], 0⟩ : Cache).UpdateObject updateFaults (objectA "x")
        = (some "database is locked", ⟨[], 0⟩) ∧
      Call.StoreLargestChangeID 4 ∈
        (checkChanges parseNonEmpty updateFaults
          [page [⟨false, "a", some (fileA "x" "2017-03-01T10:00:00Z")⟩] 3 ""]
          false ⟨[], 0⟩).calls ∧
      (checkChanges parseNonEmpty updateFaults
          [page [⟨false, "a", some (fileA "x" "2017-03-01T10:00:00Z")⟩] 3 ""]
          false ⟨[], 0⟩).cache.largestChangeID = 4) := by
  refine ⟨⟨by decide, rfl, by decide, by decide⟩, by decide, by decide, by decide⟩

/-- Claim C4, amended: failures to apply an entry do not hold the cursor back.  Whatever
`UpdateObject` and `mapFileToObject` return, a run that reads the cursor `c` and fetches
all its pages (entries that are not deletions carrying their `File`) calls
`StoreLargestChangeID` exactly when `L >= c`, once and with `L + 1`, where `L` is the
`LargestChangeId` of the last page; the cursor after the run is then `L + 1`, and `c`
otherwise. -/
theorem C4_cursor_stored_despite_apply_errors (parseRFC3339 : String → Except String Time)
    (faults : Faults) (remote : Remote) (firstCheck : Bool) (cache : Cache)
    (hread : faults.getLargestChangeID = none)
    (hfetch : fetchFails cache.largestChangeID remote "" = false)
    (hfile : ∀ results ∈ fetchedPages cache.largestChangeID remote "",
      ∀ change ∈ results.Items, change.hasFile = true) :
    (∃ last, (fetchedPages cache.largestChangeID remote "").getLast? = some last ∧
      finalLargestChangeID cache.largestChangeID remote = last.LargestChangeId) ∧
    (checkChanges parseRFC3339 faults remote firstCheck cache).calls.filter Call.isStore =
      (if finalLargestChangeID cache.largestChangeID remote ≥ cache.largestChangeID then
        [Call.StoreLargestChangeID
          (wrapInt64 (finalLargestChangeID cache.largestChangeID remote + 1))]
       else []) ∧
    (checkChanges parseRFC3339 faults remote firstCheck cache).cache.largestChangeID =
      (if finalLargestChangeID cache.largestChangeID remote ≥ cache.largestChangeID then
        wrapInt64 (finalLargestChangeID cache.largestChangeID remote + 1)
       else cache.largestChangeID) := by
  refine ⟨?_, ?_, ?_⟩
  · have hne := fetchedPages_ne_nil _ _ _ hfetch
    cases hg : (fetchedPages cache.largestChangeID remote "").getLast? with
    | none => exact absurd (List.getLast?_eq_none_iff.mp hg) hne
    | some last => exact ⟨last, rfl, by simp [finalLargestChangeID, hg]⟩
  · have h := checkChanges_calls_filter parseRFC3339 faults remote firstCheck cache
      Call.isStore (fun _ => rfl) hread hfile
    rw [h, filter_isStore_callOfChange]
    split <;> simp [Call.isStore]
  · exact checkChanges_cursor parseRFC3339 faults remote firstCheck cache hread
      (checkChanges_panicked parseRFC3339 faults remote firstCheck cache hfile)

/-- Claim C4, amended, at a run whose only entry cannot be mapped and whose `UpdateObject`
would fail: `StoreLargestChangeID(4)` is the one store call and the cursor ends at 4. -/
theorem C4_witness :
    fetchFails 0 [page [⟨false, "a", some (fileA "x" "")⟩] 3 ""] "" = false ∧
    (checkChanges parseNonEmpty updateFaults [page [⟨false, "a", some (fileA "x" "")⟩] 3 ""]
      false ⟨[], 0⟩).calls.filter Call.isStore = [Call.StoreLargestChangeID 4] ∧
    (checkChanges parseNonEmpty updateFaults [page [⟨false, "a", some (fileA "x" "")⟩] 3 ""]
      false ⟨[], 0⟩).cache.largestChangeID = 4 := by
  have h := C4_cursor_stored_despite_apply_errors parseNonEmpty updateFaults
    [page [⟨false, "a", some (fileA "x" "")⟩] 3 ""] false ⟨[], 0⟩ rfl (by decide)
    (by decide)
  exact ⟨by decide, h.2.1.trans (by decide), h.2.2.trans (by decide)⟩

/-- Claim C5: the cursor never moves backwards.  For every cache, storage faults and remote
feed (any pages, any fetch error, also a run that panics), the cursor after one run of
`checkChanges` is at least the cursor before it, provided the increment
`largestChangeID + 1` of drive.go:147 does not overflow `int64` (its operand is the
`LargestChangeId` of the last page fetched, or the cursor itself when no page was
fetched); hence the same holds over any sequence of runs, the first with
`firstCheck = true`. -/
theorem C5_cursor_never_moves_backwards (parseRFC3339 : String → Except String Time) :
    (∀ (faults : Faults) (remote : Remote) (firstCheck : Bool) (cache : Cache),
      finalLargestChangeID cache.largestChangeID remote + 1 ≤ maxInt64 →
      cache.largestChangeID
        ≤ (checkChanges parseRFC3339 faults remote firstCheck cache).cache.largestChangeID) ∧
    (∀ (envs : List (Faults × Remote)) (cache : Cache),
      incrementsFit parseRFC3339 envs true cache →
      cache.largestChangeID ≤ (runChecks parseRFC3339 envs true cache).largestChangeID) :=
  ⟨checkChanges_cursor_le parseRFC3339, fun envs cache h =>
    runChecks_cursor_le parseRFC3339 envs true cache h⟩

/-- Claim C5 at concrete inputs: one run whose second fetch fails, and a sequence of three
runs of which the second cannot read the cursor. -/
theorem C5_witness :
    finalLargestChangeID 5 [page [] 9 "page2", failedFetch] + 1 ≤ maxInt64 ∧
    (5 : Int) ≤ (checkChanges parseNonEmpty noFaults [page [] 9 "page2", failedFetch] false
      ⟨[], 5⟩).cache.largestChangeID ∧
    incrementsFit parseNonEmpty [(noFaults, [page [] 3 ""]), (readFaults, []),
      (noFaults, [page [] 2 ""])] true ⟨[], 0⟩ ∧
    (0 : Int) ≤ (runChecks parseNonEmpty [(noFaults, [page [] 3 ""]), (readFaults, []),
      (noFaults, [page [] 2 ""])] true ⟨[], 0⟩).largestChangeID := by
  have h := C5_cursor_never_moves_backwards parseNonEmpty
  have h1 : finalLargestChangeID 5 [page [] 9 "page2", failedFetch] + 1 ≤ maxInt64 := by decide
  have h2 : incrementsFit parseNonEmpty [(noFaults, [page [] 3 ""]), (readFaults, []),
      (noFaults, [page [] 2 ""])] true ⟨[], 0⟩ := by
    simp only [incrementsFit, and_true]
    decide
  exact ⟨h1, h.1 noFaults _ false ⟨[], 5⟩ h1, h2, h.2 _ ⟨[], 0⟩ h2⟩

/-- Claim C6 fails as stated: of two entries for the id `a`, the second of which cannot be
mapped, only the first yields a cache call, and the state of `a` after the run is the one
of the earlier entry; and of an entry without `File` that is not a deletion, followed by a
deletion, neither yields a call, since the run panics at the first. -/
theorem C6_counterexample :
    (fetchedChanges 0 staleRemote =
        [⟨false, "a", some (fileA "x" "2017-03-01T10:00:00Z")⟩,
         ⟨false, "a", some (fileA "y" "")⟩] ∧
      (checkChanges parseNonEmpty noFaults staleRemote false ⟨[], 0⟩).calls.filter
        Call.isMutation = [Call.UpdateObject (objectA "x")] ∧
      (checkChanges parseNonEmpty noFaults staleRemote false ⟨[], 0⟩).cache.GetObject "a"
        = some (objectA "x")) ∧
    (fetchedChanges 0 nilFileRemote = [⟨false, "a", none⟩, ⟨true, "z", none⟩] ∧
      (checkChanges parseNonEmpty noFaults nilFileRemote false ⟨[], 0⟩).panicked = true ∧
      (checkChanges parseNonEmpty noFaults nilFileRemote false ⟨[], 0⟩).calls.filter
        Call.isMutation = []) := by
  decide

/-- Claim C6, amended: in a run that reads the cursor and whose entries that are not
deletions carry their `File`, the calls `DeleteObject`/`UpdateObject` issued are, in order,
the calls of the entries of the fetched pages in the order received, where an entry that is
deleted or explicitly trashed yields `DeleteObject(FileId)`, an entry whose `File` maps to
`object` yields `UpdateObject(object)`, and an entry whose `File` cannot be mapped yields no
call.  Consequently, over a store whose `UpdateObject` succeeds, the record held for an id
after the run is the one left by the last entry that yields a call on that id: none after a
delete, the mapped object after an update. -/
theorem C6_calls_follow_entries (parseRFC3339 : String → Except String Time)
    (faults : Faults) (remote : Remote) (firstCheck : Bool) (cache : Cache)
    (hread : faults.getLargestChangeID = none)
    (hfile : ∀ results ∈ fetchedPages cache.largestChangeID remote "",
      ∀ change ∈ results.Items, change.hasFile = true) :
    (checkChanges parseRFC3339 faults remote firstCheck cache).calls.filter Call.isMutation
      = (fetchedChanges cache.largestChangeID remote).filterMap (callOfChange parseRFC3339) ∧
    ((∀ c o, faults.updateObject c o = none) →
      ∀ (before after : List Change) (change : Change) (call : Call) (id : String),
        fetchedChanges cache.largestChangeID remote = before ++ change :: after →
        callOfChange parseRFC3339 change = some call →
        call.objectID = some id →
        (∀ later ∈ after, ∀ call', callOfChange parseRFC3339 later = some call' →
          call'.objectID ≠ some id) →
        (checkChanges parseRFC3339 faults remote firstCheck cache).cache.GetObject id
          = call.record) := by
  constructor
  · have h := checkChanges_calls_filter parseRFC3339 faults remote firstCheck cache
      Call.isMutation (fun _ => rfl) hread hfile
    rw [h, filter_isMutation_callOfChange]
    split <;> simp [Call.isMutation]
  · intro hnf before after change call id hsplit hcall hid hafter
    have hobj := checkChanges_objects parseRFC3339 faults remote firstCheck cache hread hnf hfile
    have hmut : call.isMutation = true := by
      have hmem : call ∈ (before ++ change :: after).filterMap (callOfChange parseRFC3339) :=
        List.mem_filterMap.mpr ⟨change, by simp, hcall⟩
      rw [← filter_isMutation_callOfChange] at hmem
      exact (List.mem_filter.mp hmem).2
    unfold Cache.GetObject
    rw [hobj, hsplit, List.filterMap_append, List.filterMap_cons, hcall]
    exact getObject_last_call cache _ _ call id hmut hid (by
      intro x hx
      obtain ⟨later, hlater, hx2⟩ := List.mem_filterMap.mp hx
      exact hafter later hlater x hx2)

/-- Claim C6, amended, at two entries for the id `a` that both map: two `UpdateObject`
calls in order, and the record of `a` after the run is that of the later entry. -/
theorem C6_witness :
    fetchedChanges 0 renameRemote =
      [⟨false, "a", some (fileA "x" "2017-03-01T10:00:00Z")⟩] ++
        ⟨false, "a", some (fileA "y" "2017-03-02T10:00:00Z")⟩ :: [] ∧
    (checkChanges parseNonEmpty noFaults renameRemote false ⟨[], 0⟩).calls.filter
      Call.isMutation = [Call.UpdateObject (objectA "x"), Call.UpdateObject (objectA "y")] ∧
    (checkChanges parseNonEmpty noFaults renameRemote false ⟨[], 0⟩).cache.GetObject "a"
      = some (objectA "y") := by
  have h := C6_calls_follow_entries parseNonEmpty noFaults renameRemote false ⟨[], 0⟩
    rfl (by decide)
  have hsplit : fetchedChanges 0 renameRemote =
      [⟨false, "a", some (fileA "x" "2017-03-01T10:00:00Z")⟩] ++
        ⟨false, "a", some (fileA "y" "2017-03-02T10:00:00Z")⟩ :: [] := by decide
  exact ⟨hsplit, h.1.trans (by decide),
    h.2 (fun _ _ => rfl) _ [] _ (Call.UpdateObject (objectA "y")) "a" hsplit rfl rfl
      (by simp)⟩

/-- Claim C7: the flag `firstCheck` affects the log only.  For every cache, storage faults
and remote feed, `checkChanges(true)` and `checkChanges(false)` issue the same calls in the
same order (cursor read, remote queries, `DeleteObject`/`UpdateObject`,
`StoreLargestChangeID` or none), leave the same cache (objects and cursor), and end the same
way. -/
theorem C7_first_check_flag (parseRFC3339 : String → Except String Time) (faults : Faults)
    (remote : Remote) (cache : Cache) :
    (checkChanges parseRFC3339 faults remote true cache).calls
      = (checkChanges parseRFC3339 faults remote false cache).calls ∧
    (checkChanges parseRFC3339 faults remote true cache).cache
      = (checkChanges parseRFC3339 faults remote false cache).cache ∧
    (checkChanges parseRFC3339 faults remote true cache).panicked
      = (checkChanges parseRFC3339 faults remote false cache).panicked := by
  unfold checkChanges
  cases hread : faults.getLargestChangeID with
  | some e => simp [Cache.GetLargestChangeID, hread, World.logs, World.call]
  | none =>
    simp only [Cache.GetLargestChangeID, hread, World.logs, World.call, Bool.false_eq_true,
      if_false, if_true]
    have hs := pageLoop_effects parseRFC3339 faults cache.largestChangeID remote
      { cache := cache, calls := [] ++ [Call.GetLargestChangeID],
        log := [] ++ [LogEvent.debugCheckingForChanges] ++ [LogEvent.infoFirstCacheBuildStarted] }
      { cache := cache, calls := [] ++ [Call.GetLargestChangeID],
        log := [] ++ [LogEvent.debugCheckingForChanges] }
      ⟨0, 0, 0, "", cache.largestChangeID⟩ rfl rfl
    generalize pageLoop parseRFC3339 faults cache.largestChangeID remote
      { cache := cache, calls := [] ++ [Call.GetLargestChangeID],
        log := [] ++ [LogEvent.debugCheckingForChanges] ++ [LogEvent.infoFirstCacheBuildStarted] }
      ⟨0, 0, 0, "", cache.largestChangeID⟩ = o at hs
    generalize pageLoop parseRFC3339 faults cache.largestChangeID remote
      { cache := cache, calls := [] ++ [Call.GetLargestChangeID],
        log := [] ++ [LogEvent.debugCheckingForChanges] }
      ⟨0, 0, 0, "", cache.largestChangeID⟩ = o' at hs
    obtain ⟨h1, h2, h3, h4⟩ := hs
    cases hp : o.panicked
    · rw [← h4, hp]
      simp only [Bool.false_eq_true, if_false, h3]
      split <;> simp [h1, h2]
    · rw [← h4, hp]
      simp [h1, h2]

/-- Claim C7 at the end-to-end scenario: same calls and same cache, while the logs differ. -/
theorem C7_witness :
    (checkChanges parseNonEmpty noFaults scenarioRemote true ⟨[], 0⟩).calls
      = (checkChanges parseNonEmpty noFaults scenarioRemote false ⟨[], 0⟩).calls ∧
    (checkChanges parseNonEmpty noFaults scenarioRemote true ⟨[], 0⟩).cache
      = (checkChanges parseNonEmpty noFaults scenarioRemote false ⟨[], 0⟩).cache ∧
    (checkChanges parseNonEmpty noFaults scenarioRemote true ⟨[], 0⟩).log
      ≠ (checkChanges parseNonEmpty noFaults scenarioRemote false ⟨[], 0⟩).log := by
  have h := C7_first_check_flag parseNonEmpty noFaults scenarioRemote ⟨[], 0⟩
  exact ⟨h.1, h.2.1, by decide⟩

/-- Claim C8 fails as stated: a folder record that carries `FileSize = 7` and a download
URL maps to an object with `IsDir = true`, `Size = 7` and that URL. -/
theorem C8_counterexample :
    (Drive.mapFileToObject parseNonEmpty folderB).1 = Except.ok objectB ∧
    objectB.IsDir = true ∧ objectB.Size = 7 ∧ objectB.DownloadURL = "https://content/b" := by
  refine ⟨rfl, by decide, by decide, by decide⟩

/-- Claim C8, amended: for every record that `mapFileToObject` maps to an object with
`IsDir = true`, the record's `MimeType` is the folder type, `Size` is `uint64(FileSize)` and
`DownloadURL` is the record's `DownloadUrl`, copied as they are; so `Size = 0` and
`DownloadURL` is empty when the record has `FileSize = 0` and an empty `DownloadUrl`. -/
theorem C8_directory_size_and_url (parseRFC3339 : String → Except String Time) (file : File)
    (object : APIObject)
    (hmap : (Drive.mapFileToObject parseRFC3339 file).1 = Except.ok object)
    (hdir : object.IsDir = true) :
    file.MimeType = "application/vnd.google-apps.folder" ∧
    object.Size = toUint64 file.FileSize ∧
    object.DownloadURL = file.DownloadUrl ∧
    (file.FileSize = 0 → file.DownloadUrl = "" →
      object.Size = 0 ∧ object.DownloadURL = "") := by
  unfold Drive.mapFileToObject at hmap
  cases hp : parseRFC3339 file.ModifiedDate with
  | error e => simp [hp] at hmap
  | ok t =>
    simp only [hp] at hmap
    injection hmap with hmap
    subst hmap
    simp only [beq_iff_eq] at hdir
    refine ⟨hdir, rfl, rfl, ?_⟩
    intro h0 hu
    simp [h0, hu, toUint64]

/-- Claim C8, amended, at a folder record with `FileSize = 0` and no download URL. -/
theorem C8_witness :
    (Drive.mapFileToObject parseNonEmpty
      { folderB with FileSize := 0, DownloadUrl := "" }).1
        = Except.ok { objectB with Size := 0, DownloadURL := "" } ∧
    ({ objectB with Size := 0, DownloadURL := "" } : APIObject).IsDir = true ∧
    ({ objectB with Size := 0, DownloadURL := "" } : APIObject).Size = 0 ∧
    ({ objectB with Size := 0, DownloadURL := "" } : APIObject).DownloadURL = "" := by
  have h := C8_directory_size_and_url parseNonEmpty
    { folderB with FileSize := 0, DownloadUrl := "" }
    { objectB with Size := 0, DownloadURL := "" } rfl rfl
  have h2 := h.2.2.2 rfl rfl
  exact ⟨rfl, rfl, h2.1, h2.2⟩

/-- Claim C9: when `cache.GetLargestChangeID` returns an error the run has no effect: the
only call it issues is that read (no remote query, no `DeleteObject`, no `UpdateObject`, no
`StoreLargestChangeID`), and the cache, objects and cursor, is as before. -/
theorem C9_cursor_read_failure (parseRFC3339 : String → Except String Time) (faults : Faults)
    (remote : Remote) (firstCheck : Bool) (cache : Cache) (err : String)
    (hread : cache.GetLargestChangeID faults = Except.error err) :
    (checkChanges parseRFC3339 faults remote firstCheck cache).calls
      = [Call.GetLargestChangeID] ∧
    (checkChanges parseRFC3339 faults remote firstCheck cache).cache = cache ∧
    (checkChanges parseRFC3339 faults remote firstCheck cache).panicked = false := by
  unfold checkChanges
  simp only [World.logs, World.call]
  rw [hread]
  simp

/-- Claim C9 at a cache with one object and cursor 7 whose cursor cannot be read. -/
theorem C9_witness :
    (⟨[objectB], 7⟩ : Cache).GetLargestChangeID readFaults
      = Except.error "database is locked" ∧
    (checkChanges parseNonEmpty readFaults scenarioRemote true ⟨[objectB], 7⟩).calls
      = [Call.GetLargestChangeID] ∧
    (checkChanges parseNonEmpty readFaults scenarioRemote true ⟨[objectB], 7⟩).cache
      = ⟨[objectB], 7⟩ := by
  have h := C9_cursor_read_failure parseNonEmpty readFaults scenarioRemote true
    ⟨[objectB], 7⟩ "database is locked" rfl
  exact ⟨rfl, h.1, h.2.1⟩

/-- Claim C10: the `Parents` string that `mapFileToObject` produces is `|`, the parent ids
joined with `|`, and `|` (so `||` without parents); and when no parent id contains `|`, for
every non-empty `p` without `|` the string `|p|` occurs in `Parents` if and only if `p` is
one of the record's parent ids. -/
theorem C10_parents_encoding (parseRFC3339 : String → Except String Time) (file : File)
    (object : APIObject)
    (hmap : (Drive.mapFileToObject parseRFC3339 file).1 = Except.ok object) :
    object.Parents = "|" ++ stringsJoin "|" (file.Parents.map (fun parent => parent.Id)) ++ "|" ∧
    (file.Parents = [] → object.Parents = "||") ∧
    ((∀ parent ∈ file.Parents, parent.Id ≠ "" ∧ '|' ∉ parent.Id.data) →
      ∀ p : String, p ≠ "" → '|' ∉ p.data →
        (occursIn ("|" ++ p ++ "|") object.Parents ↔
          p ∈ file.Parents.map (fun parent => parent.Id))) := by
  have hP : object.Parents =
      "|" ++ stringsJoin "|" (file.Parents.map (fun parent => parent.Id)) ++ "|" := by
    unfold Drive.mapFileToObject at hmap
    cases hp : parseRFC3339 file.ModifiedDate with
    | error e => simp [hp] at hmap
    | ok t =>
      simp only [hp] at hmap
      injection hmap with hmap
      subst hmap
      rfl
  refine ⟨hP, ?_, ?_⟩
  · intro h0
    rw [hP, h0]
    decide
  · intro hids p hp0 hpbar
    have hpat : ("|" ++ p ++ "|").data = '|' :: (p.data ++ ['|']) := by
      simp only [String.data_append]; rfl
    unfold occursIn
    rw [hpat, hP]
    by_cases h0 : file.Parents.map (fun parent => parent.Id) = []
    · rw [h0]
      have hlen : 0 < p.data.length := by
        rcases p with ⟨d⟩
        cases d with
        | nil => exact absurd rfl hp0
        | cons a d => simp
      constructor
      · intro h
        have := h.length_le
        have h2 : ("|" ++ stringsJoin "|" [] ++ "|").data.length = 2 := by decide
        rw [h2] at this
        simp only [List.length_cons, List.length_append, List.length_singleton,
          List.length_nil] at this
        omega
      · intro h; simp at h
    · rw [stringsJoin_data _ h0]
      have hbar : ∀ id ∈ (file.Parents.map (fun parent => parent.Id)).map String.data,
          '|' ∉ id := by
        intro id hid
        simp only [List.mem_map] at hid
        obtain ⟨s, ⟨par, hpar, rfl⟩, rfl⟩ := hid
        exact (hids par hpar).2
      constructor
      · intro h
        have := mem_of_infix_segments '|' p.data hpbar _ hbar h
        simp only [List.mem_map] at this ⊢
        obtain ⟨s, ⟨par, hpar, rfl⟩, hs⟩ := this
        exact ⟨par, hpar, String.ext hs⟩
      · intro h
        exact infix_segments_of_mem '|' p.data _ (List.mem_map_of_mem _ h)

/-- Claim C10 at a record with parents `root` and `q`: `|q|` occurs in `|root|q|`, and
`|oo|` does not. -/
theorem C10_witness :
    (Drive.mapFileToObject parseNonEmpty folderB).1 = Except.ok objectB ∧
    objectB.Parents = "|root|q|" ∧
    occursIn "|q|" objectB.Parents ∧ ¬ occursIn "|oo|" objectB.Parents := by
  have h := C10_parents_encoding parseNonEmpty folderB objectB rfl
  have hids : ∀ parent ∈ folderB.Parents, parent.Id ≠ "" ∧ '|' ∉ parent.Id.data := by
    decide
  exact ⟨rfl, h.1.trans (by decide),
    (h.2.2 hids "q" (by decide) (by decide)).mpr (by decide),
    fun hocc => absurd ((h.2.2 hids "oo" (by decide) (by decide)).mp hocc) (by decide)⟩

end Plexdrive
